import Mathlib

/-!
Verification of the process-communication substrate of `hamster-killers-mpi`
(`src/process_base.h`): a Lamport logical clock, a message buffer for
out-of-order tags, a tagged transport wrapper, and a multi-tag dispatcher.

The shallow embedding follows `ProcessBase` member by member.  The MPI
transport (`mpl::communicator`) is external: its effects are modelled as
oracle parameters (the message and status a blocking `recv` would deliver,
the count a `probe` would report) and as explicit lists of performed sends
in the result of each operation.  `exit(EXIT_FAILURE)` is modelled by the
operation returning `none` (no successor state).

The private helpers `setTimestamp`, `getTimestamp`, `storeInBuffer` and
`fetchFromBuffer` are declared in `process_base.h` but their bodies are in a
translation unit that is not part of the sources at hand; those four are
modelled from the spec (see their doc comments).  Everything else is a
direct translation of the header.
-/

/-- A message as this substrate sees it: `MessageBase` exposes a mutable
integer logical-timestamp field; the payload (the algorithm-layer content)
is an arbitrary type parameter. -/
structure Msg (α : Type) where
  timestamp : Int
  payload : α
  deriving DecidableEq, Repr

/-- Delivery metadata (`mpl::status`): the actual source rank and actual tag
of a delivered message. -/
structure MplStatus where
  source : Int
  tag : Int
  deriving DecidableEq, Repr

/-- The wildcard source filter `mpl::any_source` (a reserved negative rank
value; real ranks are non-negative). -/
def anySource : Int := -1

/-- Whether a stored entry's actual source rank satisfies a source filter:
the wildcard filter matches any rank, otherwise the ranks must be equal. -/
def sourceMatches (filter src : Int) : Bool :=
  filter == anySource || filter == src

/-- The per-process state of `ProcessBase`: the Lamport clock, the process
rank, the broadcast scope, and the buffer of out-of-order messages with
their delivery metadata. -/
structure PState (α : Type) where
  lamportClock : Int
  rank : Int
  broadcastScope : List Int
  messageBuffer : List (Msg α × MplStatus)
  deriving DecidableEq, Repr

/-- Modelled from the spec: `setTimestamp` "writes the current clock value
into the message's timestamp field" (its body is in the missing translation
unit; the header declares it `const`, so it cannot itself change the
clock). -/
def setTimestamp (clock : Int) (message : Msg α) : Msg α :=
  { message with timestamp := clock }

/-- Modelled from the spec: `getTimestamp` reads the message's integer
logical-timestamp field. -/
def getTimestamp (message : Msg α) : Int :=
  message.timestamp

/-- Modelled from the spec: `storeInBuffer` "appends an owned message and
its metadata to the end of an ordered holding area". -/
def storeInBuffer (buffer : List (Msg α × MplStatus))
    (message : Msg α) (status : MplStatus) : List (Msg α × MplStatus) :=
  buffer ++ [(message, status)]

/-- Whether a buffered entry matches a fetch request: its actual source rank
matches the source filter and its actual tag is a member of the tag set. -/
def entryMatches (sourceRank : Int) (tags : List Int)
    (e : Msg α × MplStatus) : Bool :=
  sourceMatches sourceRank e.2.source && tags.contains e.2.tag

/-- Modelled from the spec: `fetchFromBuffer` "scans the holding area in
insertion order and removes the first entry whose source rank matches the
filter (or matches any rank if the filter is wildcard) and whose tag is a
member of the tag set; returns that entry's message and metadata, or
signals not-found if no entry matches".  Returns the removed entry together
with the remaining buffer. -/
def fetchFromBuffer (buffer : List (Msg α × MplStatus)) (sourceRank : Int)
    (tags : List Int) :
    Option ((Msg α × MplStatus) × List (Msg α × MplStatus)) :=
  match buffer with
  | [] => none
  | e :: rest =>
    if entryMatches sourceRank tags e then
      some (e, rest)
    else
      match fetchFromBuffer rest sourceRank tags with
      | some (found, rest2) => some (found, e :: rest2)
      | none => none

/-- `ProcessBase::send`: `lamportClock++; setTimestamp(message);
communicator.send(message, recipientRank, tag);`.  Returns the new state
and the performed transport send (stamped message, recipient, tag). -/
def send (message : Msg α) (recipientRank : Int) (tag : Int)
    (s : PState α) : PState α × (Msg α × Int × Int) :=
  let clock := s.lamportClock + 1
  let stamped := setTimestamp clock message
  ({ s with lamportClock := clock }, (stamped, recipientRank, tag))

/-- `ProcessBase::broadcast`: `lamportClock++; setTimestamp(message);` then
a loop over `broadcastScope` that `continue`s on the own rank and sends to
every other scope member.  The performed sends are accumulated in loop
order. -/
def broadcast (message : Msg α) (tag : Int) (s : PState α) :
    PState α × List (Msg α × Int × Int) :=
  let clock := s.lamportClock + 1
  let stamped := setTimestamp clock message
  let sends := s.broadcastScope.foldl
    (fun acc recipientRank =>
      if recipientRank = s.rank then acc
      else acc ++ [(stamped, recipientRank, tag)]) []
  ({ s with lamportClock := clock }, sends)

/-- `ProcessBase::sendVector`: `lamportClock++;` then a loop setting the
timestamp of every element, then one batch send of the whole vector. -/
def sendVector (message : List (Msg α)) (recipientRank : Int) (tag : Int)
    (s : PState α) : PState α × (List (Msg α) × Int × Int) :=
  let clock := s.lamportClock + 1
  let stamped := message.map (setTimestamp clock)
  ({ s with lamportClock := clock }, (stamped, recipientRank, tag))

/-- `ProcessBase::broadcastVector`: `lamportClock++;` then a loop stamping
every element, then a loop over `broadcastScope` that `continue`s on the
own rank and batch-sends the whole vector to every other scope member. -/
def broadcastVector (message : List (Msg α)) (tag : Int) (s : PState α) :
    PState α × List (List (Msg α) × Int × Int) :=
  let clock := s.lamportClock + 1
  let stamped := message.map (setTimestamp clock)
  let sends := s.broadcastScope.foldl
    (fun acc recipientRank =>
      if recipientRank = s.rank then acc
      else acc ++ [(stamped, recipientRank, tag)]) []
  ({ s with lamportClock := clock }, sends)

/-- `ProcessBase::receive`: first `fetchFromBuffer(status, sourceRank,
{tag})`; on a hit the destination is assigned the buffered message and the
buffered copy is deleted, on a miss `communicator.recv` blocks for a
matching message (modelled by the oracle pair `transportMsg`,
`transportStatus`); then `lamportClock = max(lamportClock, timestamp) + 1`
on the resulting message.  Returns the new state, the received message and
the status. -/
def receive (sourceRank : Int) (tag : Int) (transportMsg : Msg α)
    (transportStatus : MplStatus) (s : PState α) :
    PState α × Msg α × MplStatus :=
  let picked :=
    match fetchFromBuffer s.messageBuffer sourceRank [tag] with
    | some ((bufferedMsg, bufferedStatus), rest) =>
        (bufferedMsg, bufferedStatus, rest)
    | none => (transportMsg, transportStatus, s.messageBuffer)
  let timestamp := getTimestamp picked.1
  ({ s with
      lamportClock := max s.lamportClock timestamp + 1,
      messageBuffer := picked.2.2 },
   picked.1, picked.2.1)

/-- `ProcessBase::receiveAny`: `receive(message, mpl::any_source, tag)`. -/
def receiveAny (tag : Int) (transportMsg : Msg α)
    (transportStatus : MplStatus) (s : PState α) :
    PState α × Msg α × MplStatus :=
  receive anySource tag transportMsg transportStatus s

/-- `ProcessBase::receiveVector`: probes `(sourceRank, tag)` for an element
count (the oracle `probeCount`, `none` standing for `mpl::undefined`); on
an undefined or zero count the process calls `exit(EXIT_FAILURE)` (modelled
as `none`: no successor state, nothing received, nothing changed);
otherwise the destination is resized to the probed count, that many
elements are received (the oracle `incoming`, whose length equals the
probed count under the transport contract), and the clock observes the
first element's timestamp.  The `incoming = []` branch is unreachable under
that contract and also models the fatal stop. -/
def receiveVector (sourceRank : Int) (tag : Int) (probeCount : Option Nat)
    (incoming : List (Msg α)) (transportStatus : MplStatus) (s : PState α) :
    Option (PState α × List (Msg α) × MplStatus) :=
  match probeCount with
  | none => none
  | some size =>
    if size = 0 then none
    else
      match incoming with
      | [] => none
      | firstMsg :: _ =>
        some ({ s with
                 lamportClock :=
                   max s.lamportClock (getTimestamp firstMsg) + 1 },
              incoming, transportStatus)

/-- `ProcessBase::receiveVectorAny`: `receiveVector(message,
mpl::any_source, tag)`. -/
def receiveVectorAny (tag : Int) (probeCount : Option Nat)
    (incoming : List (Msg α)) (transportStatus : MplStatus) (s : PState α) :
    Option (PState α × List (Msg α) × MplStatus) :=
  receiveVector anySource tag probeCount incoming transportStatus s

/-- `ProcessBase::receiveMultiTagHandle`: receives the next message from
the source (oracle pair `message`, `status`); if the handler table has an
entry for the arrived tag, performs the clock observe update and invokes
that handler once with the message and its status, returning `true`;
otherwise stores a copy of the message with its status in the buffer and
returns `false`.  The handler table is modelled by its key set
`handledTags`; the third component of the result records the single handler
invocation (tag, message, status) when one occurred. -/
def receiveMultiTagHandle (handledTags : List Int) (message : Msg α)
    (status : MplStatus) (s : PState α) :
    PState α × Bool × Option (Int × Msg α × MplStatus) :=
  if status.tag ∈ handledTags then
    let timestamp := getTimestamp message
    ({ s with lamportClock := max s.lamportClock timestamp + 1 },
     true, some (status.tag, message, status))
  else
    ({ s with messageBuffer := storeInBuffer s.messageBuffer message status },
     false, none)

/-- A local communication event of a process, with the transport oracle
data a receive needs. -/
inductive PEvent (α : Type) where
  | sendOne (message : Msg α) (recipientRank tag : Int)
  | sendVec (message : List (Msg α)) (recipientRank tag : Int)
  | bcastOne (message : Msg α) (tag : Int)
  | bcastVec (message : List (Msg α)) (tag : Int)
  | recvOne (sourceRank tag : Int) (transportMsg : Msg α)
      (transportStatus : MplStatus)

/-- The state transition performed by one event (projecting away the
transport output and the received message). -/
def stepEvent (s : PState α) (e : PEvent α) : PState α :=
  match e with
  | .sendOne m r t => (send m r t s).1
  | .sendVec ms r t => (sendVector ms r t s).1
  | .bcastOne m t => (broadcast m t s).1
  | .bcastVec ms t => (broadcastVector ms t s).1
  | .recvOne src t tm tst => (receive src t tm tst s).1

/-- The timestamp the clock observes in a receive event: the timestamp of
the message `receive` returns (buffered on a hit, transport on a miss). -/
def recvObservedTs (src t : Int) (tm : Msg α) (tst : MplStatus)
    (s : PState α) : Int :=
  (receive src t tm tst s).2.1.timestamp

example :
    (send (⟨0, 37⟩ : Msg Nat) 1 2 ⟨5, 0, [], []⟩) =
      (⟨6, 0, [], []⟩, ⟨6, 37⟩, 1, 2) := by decide

example :
    (broadcast (⟨0, 9⟩ : Msg Nat) 4 ⟨3, 5, [2, 5, 7], []⟩).2 =
      [(⟨4, 9⟩, 2, 4), (⟨4, 9⟩, 7, 4)] := by decide

example :
    (receive 0 3 (⟨11, 1⟩ : Msg Nat) ⟨0, 3⟩ ⟨5, 2, [], []⟩).1.lamportClock
      = 12 := by decide

/-- The broadcast loop (skip self, append a send per other recipient)
produces exactly one send per scope entry different from the own rank, in
scope order. -/
theorem foldl_sends_eq {β : Type} (scope : List Int) (rk : Int)
    (f : Int → β) (acc : List β) :
    scope.foldl (fun a r => if r = rk then a else a ++ [f r]) acc
      = acc ++ (scope.filter (fun r => r != rk)).map f := by
  induction scope generalizing acc with
  | nil => simp
  | cons r rs ih =>
    by_cases h : r = rk
    · simp [List.foldl_cons, List.filter_cons, h, ih]
    · simp [List.foldl_cons, List.filter_cons, h, ih, List.append_assoc]

/-- The clock after a receive is exactly `max` of the old clock and the
returned message's timestamp, plus one. -/
theorem receive_clock_eq (src t : Int) (tm : Msg α) (tst : MplStatus)
    (s : PState α) :
    (receive src t tm tst s).1.lamportClock
      = max s.lamportClock (receive src t tm tst s).2.1.timestamp + 1 := by
  unfold receive
  cases h : fetchFromBuffer s.messageBuffer src [t] with
  | none => simp [getTimestamp]
  | some p =>
    obtain ⟨⟨m, st⟩, rest⟩ := p
    simp [getTimestamp]

/-- C1: for every sequence of local send, broadcast and receive operations
the Lamport clock strictly increases at each event; after any
send/broadcast (scalar or vector, one increment per batch) it equals the
previous value plus one, and after any receive it equals
`max(previous clock, received message timestamp) + 1`.  The last clause
states strict growth over any non-empty event sequence. -/
theorem clock_strictly_increases (s : PState α) (e : PEvent α) :
    s.lamportClock < (stepEvent s e).lamportClock ∧
    (stepEvent s e).lamportClock =
      (match e with
       | .sendOne _ _ _ => s.lamportClock + 1
       | .sendVec _ _ _ => s.lamportClock + 1
       | .bcastOne _ _ => s.lamportClock + 1
       | .bcastVec _ _ => s.lamportClock + 1
       | .recvOne src t tm tst =>
           max s.lamportClock (recvObservedTs src t tm tst s) + 1) ∧
    (∀ es : List (PEvent α), es ≠ [] →
        s.lamportClock < (es.foldl stepEvent s).lamportClock) := by
  have hstep : ∀ (s1 : PState α) (e1 : PEvent α),
      s1.lamportClock < (stepEvent s1 e1).lamportClock := by
    intro s1 e1
    cases e1 with
    | sendOne m r t => simp [stepEvent, send]
    | sendVec ms r t => simp [stepEvent, sendVector]
    | bcastOne m t => simp [stepEvent, broadcast]
    | bcastVec ms t => simp [stepEvent, broadcastVector]
    | recvOne src t tm tst =>
      have h := receive_clock_eq src t tm tst s1
      have h2 := le_max_left s1.lamportClock
        (receive src t tm tst s1).2.1.timestamp
      simp only [stepEvent]
      omega
  refine ⟨hstep s e, ?_, ?_⟩
  · cases e with
    | sendOne m r t => rfl
    | sendVec ms r t => rfl
    | bcastOne m t => rfl
    | bcastVec ms t => rfl
    | recvOne src t tm tst =>
      simpa [recvObservedTs] using receive_clock_eq src t tm tst s
  · intro es hne
    induction es generalizing s with
    | nil => exact absurd rfl hne
    | cons e1 rest ih =>
      rcases eq_or_ne rest [] with hr | hr
      · subst hr; simpa using hstep s e1
      · exact lt_trans (hstep s e1) (by simpa using ih (stepEvent s e1) hr)

/-- C1 witness: a concrete send event and a concrete two-event sequence,
with the non-emptiness hypothesis discharged. -/
theorem clock_strictly_increases_witness :
    (⟨5, 0, [], []⟩ : PState Nat).lamportClock <
      ((([PEvent.sendOne (⟨0, 3⟩ : Msg Nat) 1 2,
          PEvent.recvOne 1 2 (⟨9, 4⟩ : Msg Nat) ⟨1, 2⟩]) :
            List (PEvent Nat)).foldl stepEvent ⟨5, 0, [], []⟩).lamportClock :=
  (clock_strictly_increases (⟨5, 0, [], []⟩ : PState Nat)
      (PEvent.sendOne (⟨0, 3⟩ : Msg Nat) 1 2)).2.2
    [PEvent.sendOne (⟨0, 3⟩ : Msg Nat) 1 2,
     PEvent.recvOne 1 2 (⟨9, 4⟩ : Msg Nat) ⟨1, 2⟩]
    (List.cons_ne_nil _ _)

/-- C2 fails on the code: `send` increments the clock before
`setTimestamp`, so at a state with clock 5 the outgoing message carries
timestamp 6, not the pre-increment value 5 that the claim requires. -/
theorem send_timestamp_not_pre_increment :
    ¬ ((send (⟨0, 0⟩ : Msg Nat) 1 2 ⟨5, 0, [], []⟩).2.1.timestamp = 5) := by
  decide

/-- C2 (amended): for every call to send, sendVector or broadcastVector,
the timestamp written into each outgoing message (for vector sends into
every element of the batch, all the same value) is the clock value after
the one-unit increment caused by that send event, i.e. the previous clock
plus one. -/
theorem send_timestamp_post_increment (s : PState α) (m : Msg α)
    (ms : List (Msg α)) (r t : Int) :
    (send m r t s).2.1.timestamp = s.lamportClock + 1 ∧
    (∀ x ∈ (sendVector ms r t s).2.1, x.timestamp = s.lamportClock + 1) ∧
    (∀ out ∈ (broadcastVector ms t s).2, ∀ x ∈ out.1,
        x.timestamp = s.lamportClock + 1) := by
  refine ⟨rfl, ?_, ?_⟩
  · intro x hx
    simp only [sendVector, List.mem_map] at hx
    obtain ⟨y, _, rfl⟩ := hx
    rfl
  · intro out hout x hx
    simp only [broadcastVector] at hout
    rw [foldl_sends_eq] at hout
    simp only [List.nil_append, List.mem_map] at hout
    obtain ⟨rcp, _, rfl⟩ := hout
    simp only [List.mem_map] at hx
    obtain ⟨y, _, rfl⟩ := hx
    rfl

/-- C2 witness: at clock 5, a scalar send and one element of a vector
broadcast both carry timestamp 6. -/
theorem send_timestamp_post_increment_witness :
    (send (⟨0, 0⟩ : Msg Nat) 1 2 ⟨5, 0, [1], []⟩).2.1.timestamp = 5 + 1 ∧
    (⟨6, 7⟩ : Msg Nat).timestamp = 5 + 1 :=
  ⟨(send_timestamp_post_increment ⟨5, 0, [1], []⟩ ⟨0, 0⟩ [⟨0, 7⟩] 1 2).1,
   (send_timestamp_post_increment
        (⟨5, 0, [1], []⟩ : PState Nat) ⟨0, 0⟩ [⟨0, 7⟩] 1 2).2.2
     ([⟨6, 7⟩], 1, 2) (by decide) ⟨6, 7⟩ (by decide)⟩

/-- C4: a broadcast sends the once-stamped message exactly once to each
rank of the broadcast scope other than the caller's own rank (self always
skipped), in scope order, and the clock advances by exactly one whatever
the number of recipients, including zero. -/
theorem broadcast_skips_self_clock_once (s : PState α) (m : Msg α)
    (t : Int) :
    (broadcast m t s).1.lamportClock = s.lamportClock + 1 ∧
    (broadcast m t s).2 =
      (s.broadcastScope.filter (fun r => r != s.rank)).map
        (fun r => (setTimestamp (s.lamportClock + 1) m, r, t)) := by
  constructor
  · rfl
  · simpa [broadcast] using
      foldl_sends_eq s.broadcastScope s.rank
        (fun r => (setTimestamp (s.lamportClock + 1) m, r, t)) []

/-- C8: receiveAny is receive with the wildcard source filter, and
receiveVectorAny is receiveVector with the wildcard source filter, for
every destination, tag, oracle data and process state. -/
theorem receiveAny_is_wildcard (t : Int) (tm : Msg α) (tst : MplStatus)
    (pc : Option Nat) (inc : List (Msg α)) (s : PState α) :
    receiveAny t tm tst s = receive anySource t tm tst s ∧
    receiveVectorAny t pc inc tst s
      = receiveVector anySource t pc inc tst s :=
  ⟨rfl, rfl⟩

/-- A successful fetch splits the buffer around the first matching entry:
everything before it fails the filter, and the remaining buffer is exactly
the entries before and after it, in order. -/
theorem fetch_some_split (buf : List (Msg α × MplStatus)) (src : Int)
    (tags : List Int) (found : Msg α × MplStatus)
    (rest : List (Msg α × MplStatus))
    (h : fetchFromBuffer buf src tags = some (found, rest)) :
    ∃ pre post, buf = pre ++ found :: post ∧ rest = pre ++ post ∧
      entryMatches src tags found = true ∧
      ∀ x ∈ pre, entryMatches src tags x = false := by
  induction buf generalizing found rest with
  | nil => simp [fetchFromBuffer] at h
  | cons e es ih =>
    rw [fetchFromBuffer] at h
    by_cases hm : entryMatches src tags e = true
    · rw [if_pos hm] at h
      obtain ⟨rfl, rfl⟩ := Prod.mk.injEq .. ▸ Option.some.injEq .. ▸ h
      exact ⟨[], es, rfl, rfl, hm, by simp⟩
    · rw [if_neg hm] at h
      cases hfe : fetchFromBuffer es src tags with
      | none => rw [hfe] at h; cases h
      | some p =>
        obtain ⟨f2, r2⟩ := p
        rw [hfe] at h
        obtain ⟨rfl, rfl⟩ := Prod.mk.injEq .. ▸ Option.some.injEq .. ▸ h
        obtain ⟨pre, post, hb, hr, hm2, hall⟩ := ih f2 r2 hfe
        refine ⟨e :: pre, post, by simp [hb], by simp [hr], hm2, ?_⟩
        intro x hx
        rcases List.mem_cons.mp hx with rfl | hx2
        · simpa using hm
        · exact hall x hx2

/-- A failed fetch means no entry of the buffer matches the filter. -/
theorem fetch_none_no_match (buf : List (Msg α × MplStatus)) (src : Int)
    (tags : List Int) (h : fetchFromBuffer buf src tags = none) :
    ∀ x ∈ buf, entryMatches src tags x = false := by
  induction buf with
  | nil => simp
  | cons e es ih =>
    rw [fetchFromBuffer] at h
    by_cases hm : entryMatches src tags e = true
    · rw [if_pos hm] at h; cases h
    · rw [if_neg hm] at h
      cases hfe : fetchFromBuffer es src tags with
      | some p => obtain ⟨f2, r2⟩ := p; rw [hfe] at h; cases h
      | none =>
        intro x hx
        rcases List.mem_cons.mp hx with rfl | hx2
        · simpa using hm
        · exact ih hfe x hx2

/-- C6: store appends at the end of the buffer; fetch scans in insertion
order and removes the first entry matching the source filter and tag set
(everything stored before it fails the filter, and after the fetch the
buffer is exactly the other entries, in order, so the returned occurrence
is gone); a not-found fetch means no buffered entry matches, and the
caller's buffer is untouched. -/
theorem buffer_store_fetch_spec (buf : List (Msg α × MplStatus))
    (m : Msg α) (st : MplStatus) (src : Int) (tags : List Int) :
    storeInBuffer buf m st = buf ++ [(m, st)] ∧
    (∀ found rest, fetchFromBuffer buf src tags = some (found, rest) →
      ∃ pre post, buf = pre ++ found :: post ∧ rest = pre ++ post ∧
        entryMatches src tags found = true ∧
        ∀ x ∈ pre, entryMatches src tags x = false) ∧
    (fetchFromBuffer buf src tags = none →
      ∀ x ∈ buf, entryMatches src tags x = false) :=
  ⟨rfl,
   fun found rest h => fetch_some_split buf src tags found rest h,
   fun h => fetch_none_no_match buf src tags h⟩

/-- C6 witness: in a two-entry buffer whose first entry has the wrong
source, a fetch for source 1 and tag set containing 3 removes exactly the
second entry. -/
theorem buffer_store_fetch_spec_witness :
    ∃ pre post,
      ([((⟨1, 10⟩ : Msg Nat), (⟨0, 4⟩ : MplStatus)),
        ((⟨2, 20⟩ : Msg Nat), (⟨1, 3⟩ : MplStatus))] :
          List (Msg Nat × MplStatus)) =
        pre ++ ((⟨2, 20⟩ : Msg Nat), (⟨1, 3⟩ : MplStatus)) :: post ∧
      ([((⟨1, 10⟩ : Msg Nat), (⟨0, 4⟩ : MplStatus))] :
          List (Msg Nat × MplStatus)) = pre ++ post ∧
      entryMatches 1 [3] ((⟨2, 20⟩ : Msg Nat), (⟨1, 3⟩ : MplStatus)) = true ∧
      ∀ x ∈ pre, entryMatches 1 [3] x = false :=
  (buffer_store_fetch_spec
      [((⟨1, 10⟩ : Msg Nat), (⟨0, 4⟩ : MplStatus)),
       ((⟨2, 20⟩ : Msg Nat), (⟨1, 3⟩ : MplStatus))]
      ⟨0, 0⟩ ⟨0, 0⟩ 1 [3]).2.1
    ((⟨2, 20⟩ : Msg Nat), (⟨1, 3⟩ : MplStatus))
    [((⟨1, 10⟩ : Msg Nat), (⟨0, 4⟩ : MplStatus))] (by decide)

/-- C7: receive consults the buffer first.  On a hit (here: the buffer
front matches the requested source filter and tag) the destination gets
the buffered message, the buffered copy is removed, and the observe update
uses its timestamp; on a miss (no buffered entry matches) the transport
message is taken and observed, the buffer untouched.  The last conjunct is
buffer transparency: a message received through a one-entry buffer yields
exactly the same state and payload as receiving the same message directly
from the transport over an empty buffer. -/
theorem receive_buffer_transparent (s : PState α) (src tag : Int)
    (bm tm : Msg α) (bst tst : MplStatus)
    (rest : List (Msg α × MplStatus))
    (hsrc : sourceMatches src bst.source = true) (htag : bst.tag = tag) :
    (receive src tag tm tst { s with messageBuffer := (bm, bst) :: rest }
      = ({ s with lamportClock := max s.lamportClock bm.timestamp + 1,
                  messageBuffer := rest }, bm, bst)) ∧
    (fetchFromBuffer s.messageBuffer src [tag] = none →
      receive src tag tm tst s
        = ({ s with lamportClock := max s.lamportClock tm.timestamp + 1 },
           tm, tst)) ∧
    (receive src tag tm tst { s with messageBuffer := [(bm, bst)] }
        = ({ s with lamportClock := max s.lamportClock bm.timestamp + 1,
                    messageBuffer := [] }, bm, bst) ∧
     receive src tag bm bst { s with messageBuffer := [] }
        = ({ s with lamportClock := max s.lamportClock bm.timestamp + 1,
                    messageBuffer := [] }, bm, bst)) := by
  have hmatch : entryMatches src [tag] (bm, bst) = true := by
    simp [entryMatches, hsrc, List.contains, htag]
  refine ⟨?_, ?_, ?_, ?_⟩
  · simp [receive, fetchFromBuffer, hmatch, getTimestamp]
  · intro hnone
    simp [receive, hnone, getTimestamp]
  · simp [receive, fetchFromBuffer, hmatch, getTimestamp]
  · simp [receive, fetchFromBuffer, getTimestamp]

/-- C7 witness: a concrete buffered message versus its direct-transport
delivery, with the filter hypotheses discharged. -/
theorem receive_buffer_transparent_witness :
    receive 2 7 (⟨0, 0⟩ : Msg Nat) ⟨9, 9⟩
        { lamportClock := 5, rank := 0, broadcastScope := [],
          messageBuffer := [((⟨3, 42⟩ : Msg Nat), ⟨2, 7⟩)] }
      = (⟨6, 0, [], []⟩, ⟨3, 42⟩, ⟨2, 7⟩) ∧
    receive 2 7 (⟨3, 42⟩ : Msg Nat) ⟨2, 7⟩
        { lamportClock := 5, rank := 0, broadcastScope := [],
          messageBuffer := ([] : List (Msg Nat × MplStatus)) }
      = (⟨6, 0, [], []⟩, ⟨3, 42⟩, ⟨2, 7⟩) :=
  (receive_buffer_transparent
      (⟨5, 0, [], []⟩ : PState Nat) 2 7 ⟨3, 42⟩ ⟨0, 0⟩ ⟨2, 7⟩ ⟨9, 9⟩ []
      (by decide) (by decide)).2.2

/-- C5: a multi-tag dispatch step whose arriving tag has a handler entry
performs the observe clock update, invokes that handler exactly once with
the message and its metadata (the invocation record), leaves the buffer
untouched and reports true; a step whose tag has no entry appends the
message with its metadata to the buffer and reports false, with no handler
invocation. -/
theorem dispatch_routes (handledTags : List Int) (m : Msg α)
    (st : MplStatus) (s : PState α) :
    (st.tag ∈ handledTags →
      receiveMultiTagHandle handledTags m st s =
        ({ s with lamportClock := max s.lamportClock m.timestamp + 1 },
         true, some (st.tag, m, st))) ∧
    (st.tag ∉ handledTags →
      receiveMultiTagHandle handledTags m st s =
        ({ s with messageBuffer := s.messageBuffer ++ [(m, st)] },
         false, none)) := by
  constructor <;> intro h <;>
    simp [receiveMultiTagHandle, storeInBuffer, getTimestamp, h]

/-- C5 witness: with handler table keys {3}, a tag-3 message fires the
handler once and is not buffered; a tag-4 message is buffered and no
handler fires. -/
theorem dispatch_routes_witness :
    receiveMultiTagHandle [3] (⟨9, 1⟩ : Msg Nat) ⟨0, 3⟩ ⟨5, 0, [], []⟩ =
      (⟨10, 0, [], []⟩, true, some (3, ⟨9, 1⟩, ⟨0, 3⟩)) ∧
    receiveMultiTagHandle [3] (⟨9, 1⟩ : Msg Nat) ⟨0, 4⟩ ⟨5, 0, [], []⟩ =
      (⟨5, 0, [], [(⟨9, 1⟩, ⟨0, 4⟩)]⟩, false, none) :=
  ⟨(dispatch_routes [3] (⟨9, 1⟩ : Msg Nat) ⟨0, 3⟩ ⟨5, 0, [], []⟩).1
     (by decide),
   (dispatch_routes [3] (⟨9, 1⟩ : Msg Nat) ⟨0, 4⟩ ⟨5, 0, [], []⟩).2
     (by decide)⟩

/-- C10: a dispatch step whose arriving tag has no handler entry leaves the
Lamport clock unchanged (the message is only buffered); the observe update
for that message happens later, when a typed receive fetches it from the
buffer — starting from an empty buffer, a subsequent matching receive
returns the buffered message and only then applies
`max(clock, timestamp) + 1`. -/
theorem dispatch_unhandled_clock_frame (handledTags : List Int)
    (m tm : Msg α) (st tst : MplStatus) (s : PState α) (src : Int)
    (h : st.tag ∉ handledTags) :
    (receiveMultiTagHandle handledTags m st s).1.lamportClock
        = s.lamportClock ∧
    (receiveMultiTagHandle handledTags m st s).1.messageBuffer
        = s.messageBuffer ++ [(m, st)] ∧
    (s.messageBuffer = [] → sourceMatches src st.source = true →
      receive src st.tag tm tst (receiveMultiTagHandle handledTags m st s).1
        = ({ s with lamportClock := max s.lamportClock m.timestamp + 1,
                    messageBuffer := [] }, m, st)) := by
  refine ⟨?_, ?_, ?_⟩
  · simp [receiveMultiTagHandle, h]
  · simp [receiveMultiTagHandle, h, storeInBuffer]
  · intro hemp hsrc
    have hmatch : entryMatches src [st.tag] (m, st) = true := by
      simp [entryMatches, hsrc, List.contains]
    simp [receiveMultiTagHandle, h, storeInBuffer, hemp, receive,
      fetchFromBuffer, hmatch, getTimestamp]

/-- C10 witness: an unhandled tag-4 message leaves the clock at 5, and the
later typed receive for tag 4 both returns it and applies the observe
update. -/
theorem dispatch_unhandled_clock_frame_witness :
    (receiveMultiTagHandle [3] (⟨9, 1⟩ : Msg Nat) ⟨0, 4⟩
        ⟨5, 0, [], []⟩).1.lamportClock = 5 ∧
    receive 0 4 (⟨0, 0⟩ : Msg Nat) ⟨8, 8⟩
        (receiveMultiTagHandle [3] (⟨9, 1⟩ : Msg Nat) ⟨0, 4⟩
          ⟨5, 0, [], []⟩).1
      = (⟨10, 0, [], []⟩, ⟨9, 1⟩, ⟨0, 4⟩) :=
  ⟨(dispatch_unhandled_clock_frame [3] (⟨9, 1⟩ : Msg Nat) ⟨0, 0⟩ ⟨0, 4⟩
      ⟨8, 8⟩ ⟨5, 0, [], []⟩ 0 (by decide)).1,
   (dispatch_unhandled_clock_frame [3] (⟨9, 1⟩ : Msg Nat) ⟨0, 0⟩ ⟨0, 4⟩
      ⟨8, 8⟩ ⟨5, 0, [], []⟩ 0 (by decide)).2.2 rfl (by decide)⟩

/-- C3: a vector receive whose size probe reports undefined or zero
terminates the process at once (modelled by `none`: no successor state, so
nothing is received and neither clock nor destination changes); on a
non-zero probed count, with the transport delivering exactly that many
elements, the destination becomes exactly the delivered list of the probed
length and the first element's timestamp is observed. -/
theorem receiveVector_probe_spec (s : PState α) (src tag : Int)
    (probeCount : Option Nat) (incoming : List (Msg α)) (tst : MplStatus) :
    ((probeCount = none ∨ probeCount = some 0) →
      receiveVector src tag probeCount incoming tst s = none) ∧
    (∀ n m0 ms, probeCount = some n → n ≠ 0 → incoming = m0 :: ms →
      incoming.length = n →
      receiveVector src tag probeCount incoming tst s =
        some ({ s with
                  lamportClock := max s.lamportClock m0.timestamp + 1 },
              incoming, tst) ∧
      incoming.length = n) := by
  constructor
  · rintro (rfl | rfl) <;> simp [receiveVector]
  · rintro n m0 ms rfl hn rfl hlen
    exact ⟨by simp [receiveVector, hn, getTimestamp], hlen⟩

/-- C3 witness: a zero probe is fatal; a probe of 2 with two delivered
elements succeeds with a destination of length 2. -/
theorem receiveVector_probe_spec_witness :
    receiveVector 1 4 (some 0) [(⟨7, 5⟩ : Msg Nat)] ⟨1, 4⟩ ⟨5, 0, [], []⟩
        = none ∧
    receiveVector 1 4 (some 2) [(⟨7, 5⟩ : Msg Nat), ⟨7, 6⟩] ⟨1, 4⟩
        ⟨5, 0, [], []⟩
      = some (⟨8, 0, [], []⟩, [⟨7, 5⟩, ⟨7, 6⟩], ⟨1, 4⟩) :=
  ⟨(receiveVector_probe_spec (⟨5, 0, [], []⟩ : PState Nat) 1 4 (some 0)
      [⟨7, 5⟩] ⟨1, 4⟩).1 (Or.inr rfl),
   ((receiveVector_probe_spec (⟨5, 0, [], []⟩ : PState Nat) 1 4 (some 2)
      [⟨7, 5⟩, ⟨7, 6⟩] ⟨1, 4⟩).2 2 ⟨7, 5⟩ [⟨7, 6⟩] rfl (by decide) rfl
      (by decide)).1⟩

/-- C9: an empty-vector send or broadcast still advances the clock by
exactly one and still performs the transport batch send with a zero-length
payload (one batch per non-self scope member for the broadcast) — there is
no emptiness guard — while a receiveVector whose probe reports that
zero-length delivery is fatal. -/
theorem empty_vector_send_spec (s : PState α) (src r t : Int)
    (tst : MplStatus) :
    (sendVector ([] : List (Msg α)) r t s).1.lamportClock
        = s.lamportClock + 1 ∧
    (sendVector ([] : List (Msg α)) r t s).2 = ([], r, t) ∧
    (broadcastVector ([] : List (Msg α)) t s).1.lamportClock
        = s.lamportClock + 1 ∧
    (broadcastVector ([] : List (Msg α)) t s).2 =
      (s.broadcastScope.filter (fun r2 => r2 != s.rank)).map
        (fun r2 => (([] : List (Msg α)), r2, t)) ∧
    (∀ incoming : List (Msg α),
      receiveVector src t (some 0) incoming tst s = none) := by
  refine ⟨rfl, rfl, rfl, ?_, ?_⟩
  · simpa [broadcastVector] using
      foldl_sends_eq s.broadcastScope s.rank
        (fun r2 => (([] : List (Msg α)), r2, t)) []
  · intro incoming
    simp [receiveVector]
